import Mathlib

/-!
Verification of the core components of the tax-calculator service: the
bounded TTL+LRU cache (`app/core/cache.py`), the retry-with-abort policy
(`app/decorators/retry_on_failure.py`), the input validators
(`app/utils/validators.py`), the bracket fetcher and the progressive tax
computation engine (`app/core/tax_calculator.py`), shallowly embedded from
the Python source.  Python floats are modelled as exact rationals; on every
concrete input appearing below the IEEE-754 double computation performed by
the Python code and the exact rational computation agree.
-/

/- The batteries library marks the arithmetic on `Rat` irreducible, which
blocks `decide`/`rfl` evaluation of concrete rational computations; restore
the default reducibility for this file. -/
attribute [local semireducible] Rat.add Rat.mul Rat.sub Rat.inv

namespace TaxCalc

/-- Python exceptions raised by the embedded code (`app/exceptions/api_errors.py`
plus the standard-library exceptions the code can raise).  `apiError` is the
base `APIError(message, status_code)`; `resourceNotFoundError` (404),
`validationError` (400), `unauthorizedError` (401) and `rateLimitError` (429)
are its subclasses, each fixing the status code.  `requestException` models
`requests.RequestException`; `keyError` models the `KeyError` raised by
`OrderedDict.popitem` on an empty dict; `zeroDivisionError` models
`ZeroDivisionError`. -/
inductive PyExc where
  | requestException (msg : String)
  | apiError (msg : String) (code : ℤ)
  | resourceNotFoundError (msg : String)
  | validationError (msg : String)
  | unauthorizedError (msg : String)
  | rateLimitError (msg : String)
  | keyError
  | zeroDivisionError
deriving DecidableEq

/-- Python `isinstance(e, APIError)`: true for `APIError` itself and for all
its subclasses declared in `app/exceptions/api_errors.py`. -/
def PyExc.isAPIError : PyExc → Bool
  | .apiError _ _ => true
  | .resourceNotFoundError _ => true
  | .validationError _ => true
  | .unauthorizedError _ => true
  | .rateLimitError _ => true
  | _ => false

/-- Python `isinstance(e, requests.RequestException)`. -/
def PyExc.isRequestException : PyExc → Bool
  | .requestException _ => true
  | _ => false

/-- Python `isinstance(e, RateLimitError)`. -/
def PyExc.isRateLimitError : PyExc → Bool
  | .rateLimitError _ => true
  | _ => false

/-- Python `isinstance(e, ValidationError)`. -/
def PyExc.isValidationError : PyExc → Bool
  | .validationError _ => true
  | _ => false

/-- The tuple of exception classes caught by the retry wrapper:
`except (requests.RequestException, APIError)` in
`app/decorators/retry_on_failure.py`. -/
def retryCaught (e : PyExc) : Bool :=
  e.isRequestException || e.isAPIError

/-! ## The bounded TTL + LRU cache (`app/core/cache.py`)

`LRUCache` stores an `OrderedDict` mapping keys to `(value, timestamp)`
pairs.  We model the ordered dict as a list of `(key, value, timestamp)`
triples in recency order: least recently used at the head (the front of the
`OrderedDict`, popped by `popitem(last=False)`), most recently used at the
tail.  `datetime.now().timestamp()` is passed in explicitly as `now`. -/

structure LRUCache (K V : Type) where
  entries : List (K × V × ℚ)
  capacity : ℕ
  ttl_in_seconds : ℚ
deriving DecidableEq

variable {K V : Type} [DecidableEq K]

/-- Dict lookup `self.cache[key]`, returning `(value, timestamp)` when the
key is present. -/
def lookupEntry : List (K × V × ℚ) → K → Option (V × ℚ)
  | [], _ => none
  | (k', v, t) :: rest, k => if k' = k then some (v, t) else lookupEntry rest k

/-- Dict deletion `del self.cache[key]` (also the removal half of
`move_to_end`). -/
def removeKey (l : List (K × V × ℚ)) (k : K) : List (K × V × ℚ) :=
  l.filter (fun e => decide (e.1 ≠ k))

/-- `LRUCache.__init__(capacity, ttl_in_seconds)`: empty ordered dict. -/
def LRUCache.init (capacity : ℕ) (ttl_in_seconds : ℚ) : LRUCache K V :=
  ⟨[], capacity, ttl_in_seconds⟩

/-- `LRUCache.get`: absent key returns `None`; an entry whose age exceeds
the TTL is deleted and `None` is returned (lazy expiry); otherwise the entry
is moved to the most-recently-used position and its value returned. -/
def LRUCache.get (c : LRUCache K V) (k : K) (now : ℚ) :
    Option V × LRUCache K V :=
  match lookupEntry c.entries k with
  | none => (none, c)
  | some (v, t) =>
    if now - t > c.ttl_in_seconds then
      (none, { c with entries := removeKey c.entries k })
    else
      (some v, { c with entries := removeKey c.entries k ++ [(k, v, t)] })

/-- `LRUCache.put`: delete an existing entry for the key; otherwise if the
dict is at capacity, `popitem(last=False)` evicts the least-recently-used
entry — raising `KeyError` when the dict is empty; then the new entry is
inserted at the most-recently-used position with the current timestamp. -/
def LRUCache.put (c : LRUCache K V) (k : K) (v : V) (now : ℚ) :
    Except PyExc (LRUCache K V) :=
  if (lookupEntry c.entries k).isSome then
    .ok { c with entries := removeKey c.entries k ++ [(k, v, now)] }
  else if c.entries.length ≥ c.capacity then
    match c.entries with
    | [] => .error .keyError
    | _ :: rest => .ok { c with entries := rest ++ [(k, v, now)] }
  else
    .ok { c with entries := c.entries ++ [(k, v, now)] }

/-- `LRUCache.__contains__`: pure presence check, no expiry or recency
update. -/
def LRUCache.containsKey (c : LRUCache K V) (k : K) : Bool :=
  (lookupEntry c.entries k).isSome

/-- `LRUCache.__delitem__`: idempotent delete. -/
def LRUCache.delete (c : LRUCache K V) (k : K) : LRUCache K V :=
  { c with entries := removeKey c.entries k }

/-- `LRUCache.clear`. -/
def LRUCache.clear (c : LRUCache K V) : LRUCache K V :=
  { c with entries := [] }

/-- One client-visible cache operation, tagged with the wall-clock time at
which it is performed where the operation reads the clock. -/
inductive CacheOp (K V : Type) where
  | get (k : K) (now : ℚ)
  | put (k : K) (v : V) (now : ℚ)
  | delete (k : K)
  | clear
  | contains (k : K)

/-- Run a sequence of cache operations, stopping at the first raised
exception (only `put` can raise, via `popitem` on an empty dict). -/
def runOps : List (CacheOp K V) → LRUCache K V → Except PyExc (LRUCache K V)
  | [], c => .ok c
  | .get k now :: rest, c => runOps rest (c.get k now).2
  | .put k v now :: rest, c =>
    match c.put k v now with
    | .ok c' => runOps rest c'
    | .error e => .error e
  | .delete k :: rest, c => runOps rest (c.delete k)
  | .clear :: rest, c => runOps rest c.clear
  | .contains _ :: rest, c => runOps rest c

/-! ## The retry policy (`app/decorators/retry_on_failure.py`)

The wrapped operation is modelled as a state-threading function
`f : ℕ → σ → Except PyExc α × σ`: attempt number `i` run in state `s`
either returns a value or raises, and yields the successor state (the
bracket fetcher mutates the module-level cache).  `time.sleep` calls are
recorded in a list of slept durations.  The abort predicate
`should_abort_retry` is a total boolean predicate; the Python `None`
default corresponds to the constantly-false predicate (the check is
`if should_abort_retry and should_abort_retry(e)`). -/

/-- Observable outcome of one wrapped call: the returned value
(`.ok (some a)`; `.ok none` is the dead fall-through `return None` path),
or the raised exception; the number of attempts made; every backoff sleep
performed, in order; and the final threaded state. -/
structure RetryResult (σ α : Type) where
  outcome : Except PyExc (Option α)
  attempts : ℕ
  sleeps : List ℚ
  state : σ

/-- The retry loop `for attempt in range(max_retries)`, with `fuel` the
number of loop iterations still permitted (`max_retries - i`) and `i` the
Python `attempt` counter.  An exception outside the
`(requests.RequestException, APIError)` tuple propagates immediately; a
caught exception satisfying the abort predicate breaks out of the loop and
is re-raised as `last_exception`; otherwise the loop sleeps
`delay_in_seconds * (attempt + 1)` and retries, except on the last attempt,
which re-raises. -/
def retryGo {σ α : Type} (D : ℚ) (P : PyExc → Bool)
    (f : ℕ → σ → Except PyExc α × σ) :
    ℕ → ℕ → σ → List ℚ → RetryResult σ α
  | 0, i, s, sl => ⟨.ok none, i, sl, s⟩
  | fuel + 1, i, s, sl =>
    match f i s with
    | (.ok a, s') => ⟨.ok (some a), i + 1, sl, s'⟩
    | (.error e, s') =>
      if ¬ retryCaught e then ⟨.error e, i + 1, sl, s'⟩
      else if P e then ⟨.error e, i + 1, sl, s'⟩
      else if fuel = 0 then ⟨.error e, i + 1, sl, s'⟩
      else retryGo D P f fuel (i + 1) s' (sl ++ [D * ((i : ℚ) + 1)])

/-- `retry_on_failure(max_retries, delay_in_seconds, should_abort_retry)`
applied to an operation and run once: decoration itself raises
`ValidationError` unless `max_retries > 0`; otherwise the loop runs. -/
def retry_on_failure {σ α : Type} (max_retries : ℤ) (D : ℚ)
    (P : PyExc → Bool) (f : ℕ → σ → Except PyExc α × σ) (s : σ) :
    Except PyExc (RetryResult σ α) :=
  if max_retries ≤ 0 then
    .error (.validationError "Maximum retries must be greater than 0")
  else
    .ok (retryGo D P f max_retries.toNat 0 s [])

/-! ## Input validators (`app/utils/validators.py`)

Python numbers are modelled as exact rationals.  `re` character classes and
`float`/`int` literal parsing are modelled over ASCII characters (the
claims' inputs are all ASCII; we do not model the unicode-digit fringe of
Python's `\d`, `float` and `int`). -/

/-- `'0' <= c <= '9'`, the ASCII case of Python's `\d`. -/
def isDigitChar (c : Char) : Bool :=
  decide ('0' ≤ c) && decide (c ≤ '9')

/-- ASCII whitespace matched by Python's `\s`:
space, tab, newline, carriage return, vertical tab, form feed. -/
def isSpaceChar (c : Char) : Bool :=
  c = ' ' || c = '\t' || c = '\n' || c = '\r' || c.toNat = 11 || c.toNat = 12

/-- A character removed by `re.sub(r'[,\s_]', '', salary)`. -/
def isSeparatorChar (c : Char) : Bool :=
  c = ',' || c = '_' || isSpaceChar c

/-- Value of a digit string, most significant digit first. -/
def digitsToNat (l : List Char) : ℕ :=
  l.foldl (fun n c => 10 * n + (c.toNat - 48)) 0

/-- Combined model of the regex `^-?\d*\.?\d+$` and the subsequent
`float(cleaned_salary)`: `none` when the regex does not match, otherwise
the exact value of the decimal literal.  (Every string matching the regex
is a valid `float` literal, so the `ValueError` branch of
`validate_salary` is unreachable.) -/
def parseCleaned (l : List Char) : Option ℚ :=
  let signSplit : Bool × List Char :=
    match l with
    | '-' :: rest => (true, rest)
    | _ => (false, l)
  let intPart := signSplit.2.takeWhile isDigitChar
  let rest := signSplit.2.drop intPart.length
  let val : Option ℚ :=
    match rest with
    | [] => if intPart = [] then none else some (digitsToNat intPart)
    | '.' :: frac =>
      if frac ≠ [] ∧ frac.all isDigitChar then
        some ((digitsToNat intPart : ℚ) +
          (digitsToNat frac : ℚ) / (10 : ℚ) ^ frac.length)
      else none
    | _ => none
  match val with
  | none => none
  | some v => some (if signSplit.1 then -v else v)

/-- The salary argument: Python `Optional[str | float]`. -/
inductive SalaryInput where
  | none
  | num (q : ℚ)
  | str (s : String)

/-- `validate_salary`: falsy input (absent, `0`/`0.0`, `""`) maps to `0.0`;
a numeric input is returned as a float; a string is stripped of `,`, `_`
and whitespace, matched against `^-?\d*\.?\d+$` and parsed, raising
`ValidationError` on a failed match. -/
def validate_salary : SalaryInput → Except PyExc ℚ
  | .none => .ok 0
  | .num q => .ok q
  | .str s =>
    if s = "" then .ok 0
    else
      match parseCleaned (s.toList.filter (fun c => !isSeparatorChar c)) with
      | some q => .ok q
      | Option.none => .error (.validationError "Invalid salary format")

/-- The year argument: Python `Optional[str | int]`; `None` and `0` are both
falsy and behave identically, so the absent case is represented by `int 0`. -/
inductive YearInput where
  | int (n : ℤ)
  | str (s : String)

/-- Model of Python `int(string)` for ASCII inputs without underscore
separators: optional sign followed by one or more digits (the inputs
considered never use `int`'s underscore or non-ASCII forms). -/
def parsePyInt (l : List Char) : Option ℤ :=
  let signSplit : Bool × List Char :=
    match l with
    | '-' :: rest => (true, rest)
    | '+' :: rest => (false, rest)
    | _ => (false, l)
  if signSplit.2 ≠ [] ∧ signSplit.2.all isDigitChar then
    some (if signSplit.1 then -(digitsToNat signSplit.2 : ℤ)
          else (digitsToNat signSplit.2 : ℤ))
  else none

/-- The `2019 <= year_int <= 2023` range check of `validate_year`. -/
def yearRange (n : ℤ) : Except PyExc ℤ :=
  if n < 2019 ∨ n > 2023 then .error (.validationError "Year not supported")
  else .ok n

/-- `validate_year`: falsy input raises; a string has ASCII spaces removed
and is parsed by `int`, raising on failure; the resulting integer must lie
in the supported range 2019–2023. -/
def validate_year : YearInput → Except PyExc ℤ
  | .int n =>
    if n = 0 then .error (.validationError "Year cannot be empty")
    else yearRange n
  | .str s =>
    if s = "" then .error (.validationError "Year cannot be empty")
    else
      match parsePyInt (s.toList.filter (fun c => c ≠ ' ')) with
      | none => .error (.validationError "Invalid year format")
      | some n => yearRange n

/-- Characters permitted in a URL scheme by `urllib.parse`. -/
def isSchemeChar (c : Char) : Bool :=
  c.isAlpha || isDigitChar c || c = '+' || c = '-' || c = '.'

/-- Model of `urlparse`'s scheme split: a non-empty prefix of scheme
characters starting with a letter, followed by `:`.  Returns the scheme and
the remainder after the colon, or `none` when the URL has no scheme. -/
def splitScheme (l : List Char) : Option (List Char × List Char) :=
  let pre := l.takeWhile (fun c => c ≠ ':')
  if pre.length < l.length ∧ pre ≠ [] ∧
      (match pre with | c :: _ => c.isAlpha | [] => false) = true ∧
      pre.all isSchemeChar then
    some (pre, l.drop (pre.length + 1))
  else none

/-- Model of `urlparse`'s netloc: present only when the remainder after the
scheme starts with `//`, extending to the next `/`, `?` or `#`. -/
def netlocOf (l : List Char) : List Char :=
  match l with
  | '/' :: '/' :: rest =>
    rest.takeWhile (fun c => c ≠ '/' && c ≠ '?' && c ≠ '#')
  | _ => []

/-- `validate_api_url`: empty URL raises; a URL whose `urlparse` lacks a
scheme or a netloc raises; otherwise `url.geturl()` is returned (which
round-trips the absolute URLs considered here, so the input string is
returned). -/
def validate_api_url (s : String) : Except PyExc String :=
  if s = "" then .error (.validationError "API URL cannot be empty")
  else
    match splitScheme s.toList with
    | none => .error (.validationError "Invalid API URL")
    | some (_, rest) =>
      if netlocOf rest = [] then .error (.validationError "Invalid API URL")
      else .ok s

/-! ## Python `round` and number formatting

`round(x, 2)` and the `:,.2f` format specifier both round half to even.
They are modelled exactly over ℚ. -/

/-- `⌊q⌋` computed from the reduced fraction (division rounding toward
negative infinity). -/
def pyFloor (q : ℚ) : ℤ := q.num.fdiv (q.den : ℤ)

/-- Round to the nearest integer, ties to the even integer (Python
`round(x)` / banker's rounding). -/
def pyRoundInt (x : ℚ) : ℤ :=
  let f := pyFloor x
  let r := x - (f : ℚ)
  if r < 1 / 2 then f
  else if 1 / 2 < r then f + 1
  else if f % 2 = 0 then f
  else f + 1

/-- Python `round(x, 2)`. -/
def pyRound2 (x : ℚ) : ℚ := (pyRoundInt (x * 100) : ℚ) / 100

/-- The ASCII digit for `d < 10`. -/
def digitChar : ℕ → Char
  | 0 => '0' | 1 => '1' | 2 => '2' | 3 => '3' | 4 => '4'
  | 5 => '5' | 6 => '6' | 7 => '7' | 8 => '8' | _ => '9'

/-- Decimal digits of `n`, least significant first, with explicit fuel to
keep the recursion structural. -/
def natDigitsRev : ℕ → ℕ → List ℕ
  | 0, _ => []
  | fuel + 1, n => if n < 10 then [n] else n % 10 :: natDigitsRev fuel (n / 10)

/-- Decimal digits of `n`, most significant first. -/
def natToDigits (n : ℕ) : List Char :=
  ((natDigitsRev (n + 1) n).map digitChar).reverse

/-- Insert a comma after every group of three characters of a
least-significant-first digit list. -/
def groupRev : List Char → List Char
  | a :: b :: c :: d :: rest => a :: b :: c :: ',' :: groupRev (d :: rest)
  | l => l

/-- Thousands-separated rendering of a most-significant-first digit list. -/
def commaGrouped (digits : List Char) : List Char :=
  (groupRev digits.reverse).reverse

/-- The f-string format `f"{x:,.2f}"`: round to two decimals (half to
even), thousands-separated integer part, exactly two decimal digits. -/
def formatMoney2 (q : ℚ) : String :=
  let n := pyRoundInt (q * 100)
  let a := n.natAbs
  (if n < 0 then "-" else "") ++
    ⟨commaGrouped (natToDigits (a / 100))⟩ ++ "." ++
    ⟨[digitChar (a % 100 / 10), digitChar (a % 100 % 10)]⟩

/-! ## The tax computation engine (`TaxCalculator.calculate_taxes`) -/

/-- One tax bracket dict `{min, max?, rate}`: `max` is absent for the
unbounded top bracket. -/
structure Bracket where
  min : ℚ
  max : Option ℚ
  rate : ℚ
deriving DecidableEq

/-- One entry of `taxes_per_bracket`. -/
structure BreakdownEntry where
  bracket : String
  tax_amount : ℚ
  rate : ℚ
deriving DecidableEq

/-- The `"bracket"` label: `f"${min:,.2f} to ${max:,.2f}"` when `max` is
present, `f"Over ${min:,.2f}"` otherwise. -/
def bracketLabel (b : Bracket) : String :=
  match b.max with
  | some m => "$" ++ formatMoney2 b.min ++ " to $" ++ formatMoney2 m
  | none => "Over $" ++ formatMoney2 b.min

/-- `TaxCalculator.calculate_taxes(salary, brackets)`.  `brackets` is
`Option (List Bracket)` because Python accepts `None` as well as a list;
both `None` and `[]` are falsy and raise `ValidationError`.  The salary is
validated by the shared rule.  Each bracket with `salary > min` contributes
`round(min(salary - min, width) * rate, 2)` and a breakdown entry; the
total is rounded again and the effective rate is
`round(total / salary * 100, 2)` — a salary of `0` raises
`ZeroDivisionError` there. -/
def calculate_taxes (salary : SalaryInput) (brackets : Option (List Bracket)) :
    Except PyExc (ℚ × ℚ × List BreakdownEntry) :=
  let bs := match brackets with | none => [] | some l => l
  if bs = [] then .error (.validationError "Tax brackets cannot be empty")
  else
    match validate_salary salary with
    | .error e => .error e
    | .ok sal =>
      let step := fun (acc : ℚ × List BreakdownEntry) (b : Bracket) =>
        if b.min < sal then
          let taxable :=
            match b.max with
            | some m => min (sal - b.min) (m - b.min)
            | none => sal - b.min
          let tax := pyRound2 (taxable * b.rate)
          (acc.1 + tax,
            acc.2 ++ [⟨bracketLabel b, tax, pyRound2 (b.rate * 100)⟩])
        else acc
      let folded := bs.foldl step (0, [])
      if sal = 0 then .error .zeroDivisionError
      else .ok (pyRound2 folded.1, pyRound2 (pyRound2 folded.1 / sal * 100),
        folded.2)

/-! ## The bracket fetcher (`TaxCalculator.fetch_tax_brackets`) -/

/-- `str(n)` for a Python int. -/
def intToString (n : ℤ) : String :=
  (if n < 0 then "-" else "") ++ ⟨natToDigits n.natAbs⟩

/-- `TaxCalculator.get_cache_key(year)`. -/
def get_cache_key (y : ℤ) : String := "brackets_" ++ intToString y

/-- The upstream interaction of one attempt: either `requests.get` (or
`raise_for_status`) raises a `requests.RequestException`, or a response
arrives with a status code, a flag for whether the JSON body contains the
`"tax_brackets"` field, and the bracket list under that field.  (Responses
whose body is not JSON at all are outside the model; the code would let
the JSON decoding error propagate uncaught.) -/
inductive HttpOutcome where
  | networkError (msg : String)
  | response (status : ℕ) (hasField : Bool) (brackets : List Bracket)

/-- The module-level `tax_brackets_cache` maps string keys to bracket
lists. -/
def TaxCache := LRUCache String (List Bracket)

/-- `ONE_MONTH_IN_SECONDS`. -/
def ONE_MONTH_IN_SECONDS : ℚ := 2592000

/-- The module-level `tax_brackets_cache = LRUCache(ttl_in_seconds=ONE_MONTH_IN_SECONDS)`
(default capacity 100). -/
def tax_brackets_cache : TaxCache := LRUCache.init 100 ONE_MONTH_IN_SECONDS

/-- Observable effect of one `fetch_tax_brackets` attempt: the returned
`(brackets, cache_hit)` pair or raised exception, the cache state after the
attempt, and whether `requests.get` was called. -/
structure FetchStep where
  result : Except PyExc (List Bracket × Bool)
  cache : TaxCache
  madeHttp : Bool

/-- The HTTP half of a `fetch_tax_brackets` attempt, after a cache miss.
404 → `ResourceNotFoundError`; 429 → `RateLimitError`; ≥ 500 →
`APIError(…, 503)`; any other 4xx makes `raise_for_status` raise
`requests.HTTPError`, which the surrounding
`except requests.RequestException` turns into
`APIError("Failed to fetch tax brackets", 503)` — as it does a transport
failure; a 2xx/3xx body without the `"tax_brackets"` field →
`APIError(…, 502)`; otherwise the brackets are cached and returned with
`cache_hit = False`. -/
def fetchHttp (y : ℤ) (key : String) (http : HttpOutcome) (c : TaxCache)
    (now : ℚ) : FetchStep :=
  match http with
  | .networkError _ =>
    ⟨.error (.apiError "Failed to fetch tax brackets" 503), c, true⟩
  | .response st hasField br =>
    if st = 404 then
      ⟨.error (.resourceNotFoundError
        ("Tax data not found for year " ++ intToString y)), c, true⟩
    else if st = 429 then
      ⟨.error (.rateLimitError "API rate limit exceeded"), c, true⟩
    else if 500 ≤ st then
      ⟨.error (.apiError "External API server error" 503), c, true⟩
    else if 400 ≤ st then
      ⟨.error (.apiError "Failed to fetch tax brackets" 503), c, true⟩
    else if !hasField then
      ⟨.error (.apiError "Invalid response format from tax API" 502), c, true⟩
    else
      match LRUCache.put c key br now with
      | .ok c2 => ⟨.ok (br, false), c2, true⟩
      | .error e => ⟨.error e, c, true⟩

/-- One attempt of `fetch_tax_brackets`: validate the URL, then the year
(a `ValidationError` propagates — it is not a `requests.RequestException`,
so the function's own `except` clause does not touch it); compute the
year's cache key and consult the module cache; a truthy cached value is
returned with `cache_hit = True` and no HTTP call; a miss — or a cached
falsy value such as `[]` — proceeds to the HTTP request. -/
def fetchAttempt (year : YearInput) (api_url : String) (http : HttpOutcome)
    (c : TaxCache) (now : ℚ) : FetchStep :=
  match validate_api_url api_url with
  | .error e => ⟨.error e, c, false⟩
  | .ok _ =>
    match validate_year year with
    | .error e => ⟨.error e, c, false⟩
    | .ok y =>
      let key := get_cache_key y
      let g := LRUCache.get c key now
      match g.1 with
      | some l =>
        if l ≠ [] then ⟨.ok (l, true), g.2, false⟩
        else fetchHttp y key http g.2 now
      | none => fetchHttp y key http g.2 now

/-- `fetch_tax_brackets` as decorated:
`@retry_on_failure(should_abort_retry=lambda e: isinstance(e, RateLimitError))`
with the default 3 attempts and 1-second base delay, threading the
module-level cache; `http i` and `nows i` are the upstream outcome and the
clock reading of attempt `i`.  (The `@timing` decorator only logs and is
omitted.) -/
def fetch_tax_brackets (year : YearInput) (api_url : String)
    (http : ℕ → HttpOutcome) (nows : ℕ → ℚ) (c : TaxCache) :
    Except PyExc (RetryResult TaxCache (List Bracket × Bool)) :=
  retry_on_failure 3 1 PyExc.isRateLimitError
    (fun i s =>
      let st := fetchAttempt year api_url (http i) s (nows i)
      (st.result, st.cache))
    c

/-! ## Lemmas about the cache -/

theorem lookupEntry_removeKey_self (l : List (K × V × ℚ)) (k : K) :
    lookupEntry (removeKey l k) k = none := by
  induction l with
  | nil => rfl
  | cons e rest ih =>
    obtain ⟨k', v, t⟩ := e
    by_cases h : k' = k
    · simpa [removeKey, List.filter_cons, h] using ih
    · simpa [removeKey, List.filter_cons, h, lookupEntry] using ih

theorem length_removeKey_le (l : List (K × V × ℚ)) (k : K) :
    (removeKey l k).length ≤ l.length :=
  List.length_filter_le _ _

theorem removeKey_cons (e : K × V × ℚ) (rest : List (K × V × ℚ)) (k : K) :
    removeKey (e :: rest) k =
      if e.1 = k then removeKey rest k else e :: removeKey rest k := by
  simp only [removeKey, List.filter_cons]
  by_cases h : e.1 = k <;> simp [h]

theorem length_removeKey_lt (l : List (K × V × ℚ)) (k : K)
    (h : (lookupEntry l k).isSome) : (removeKey l k).length < l.length := by
  induction l with
  | nil => simp [lookupEntry] at h
  | cons e rest ih =>
    obtain ⟨k', v, t⟩ := e
    rw [removeKey_cons]
    have hle := length_removeKey_le rest k
    by_cases hk : k' = k
    · rw [if_pos hk]
      simp only [List.length_cons]
      omega
    · rw [if_neg hk]
      rw [lookupEntry, if_neg hk] at h
      have := ih h
      simp only [List.length_cons]
      omega

theorem get_entries_length_le (c : LRUCache K V) (k : K) (now : ℚ) :
    (c.get k now).2.entries.length ≤ c.entries.length ∧
      (c.get k now).2.capacity = c.capacity := by
  unfold LRUCache.get
  cases h : lookupEntry c.entries k with
  | none => simp
  | some vt =>
    obtain ⟨v, t⟩ := vt
    have hlt := length_removeKey_lt c.entries k (by simp [h])
    by_cases hc : now - t > c.ttl_in_seconds
    · simp only [hc, if_true]
      refine ⟨le_of_lt hlt, trivial⟩
    · simp only [hc, if_false]
      refine ⟨?_, trivial⟩
      simp only [List.length_append, List.length_cons, List.length_nil]
      omega

theorem put_ok (c : LRUCache K V) (k : K) (v : V) (now : ℚ)
    (hcap : 1 ≤ c.capacity) (hlen : c.entries.length ≤ c.capacity) :
    ∃ c', c.put k v now = .ok c' ∧ c'.entries.length ≤ c.capacity ∧
      c'.capacity = c.capacity := by
  by_cases h : (lookupEntry c.entries k).isSome
  · have hlt := length_removeKey_lt c.entries k h
    refine ⟨⟨removeKey c.entries k ++ [(k, v, now)], c.capacity,
      c.ttl_in_seconds⟩, ?_, ?_, rfl⟩
    · unfold LRUCache.put
      rw [if_pos h]
    · simp only [List.length_append, List.length_cons, List.length_nil]
      omega
  · by_cases hfull : c.entries.length ≥ c.capacity
    · cases hE : c.entries with
      | nil => exfalso; rw [hE] at hfull; simp at hfull; omega
      | cons e rest =>
        refine ⟨⟨rest ++ [(k, v, now)], c.capacity, c.ttl_in_seconds⟩,
          ?_, ?_, rfl⟩
        · unfold LRUCache.put
          rw [if_neg h, if_pos hfull, hE]
        · have : c.entries.length = rest.length + 1 := by rw [hE]; simp
          simp only [List.length_append, List.length_cons, List.length_nil]
          omega
    · refine ⟨⟨c.entries ++ [(k, v, now)], c.capacity, c.ttl_in_seconds⟩,
        ?_, ?_, rfl⟩
      · unfold LRUCache.put
        rw [if_neg h, if_neg hfull]
      · simp only [List.length_append, List.length_cons, List.length_nil]
        omega

theorem runOps_ok (cap : ℕ) (hcap : 1 ≤ cap) :
    ∀ (ops : List (CacheOp K V)) (c : LRUCache K V),
      c.capacity = cap → c.entries.length ≤ cap →
      ∃ c', runOps ops c = .ok c' ∧ c'.capacity = cap ∧
        c'.entries.length ≤ cap := by
  intro ops
  induction ops with
  | nil => exact fun c h1 h2 => ⟨c, rfl, h1, h2⟩
  | cons op rest ih =>
    intro c h1 h2
    cases op with
    | get k now =>
      have hg := get_entries_length_le c k now
      obtain ⟨c', hrun, hc', hl'⟩ :=
        ih (c.get k now).2 (by rw [hg.2, h1]) (le_trans hg.1 h2)
      exact ⟨c', by simpa [runOps] using hrun, hc', hl'⟩
    | put k v now =>
      obtain ⟨c₁, hput, hlen₁, hcap₁⟩ :=
        put_ok c k v now (h1 ▸ hcap) (h1 ▸ h2)
      obtain ⟨c', hrun, hc', hl'⟩ :=
        ih c₁ (hcap₁.trans h1) (h1 ▸ hlen₁)
      exact ⟨c', by simp [runOps, hput, hrun], hc', hl'⟩
    | delete k =>
      exact ih (c.delete k) h1 (le_trans (length_removeKey_le _ _) h2)
    | clear => exact ih c.clear h1 (by simp [LRUCache.clear])
    | contains k => exact ih c h1 h2

/-- **C4** (amended): for every cache of capacity at least 1 and every
sequence of operations run from construction, no operation raises — in
particular `put` never raises — and the number of entries is at most the
capacity after every operation, so in particular after any `put`: capacity
violations are prevented structurally by evicting the least-recently-used
entry.  (The restriction to capacity ≥ 1 is forced: at capacity 0 the first
`put` raises `KeyError` from `popitem` on an empty `OrderedDict`.) -/
theorem put_bounded_never_raises {K V : Type} [DecidableEq K]
    (cap : ℕ) (hcap : 1 ≤ cap) (ttl : ℚ) (ops : List (CacheOp K V)) :
    ∃ c', runOps ops (LRUCache.init cap ttl) = .ok c' ∧
      c'.entries.length ≤ cap :=
  (runOps_ok cap hcap ops (LRUCache.init cap ttl) rfl
    (by simp [LRUCache.init])).imp
    (fun c' h => ⟨h.1, h.2.2⟩)

/-- Witness for the C4 theorem: capacity 1, a concrete three-operation
sequence including two `put`s. -/
theorem put_bounded_never_raises_witness :
    (1 ≤ 1) ∧ ∃ c',
      runOps [CacheOp.put 0 0 0, CacheOp.put 1 5 0, CacheOp.get 1 0]
        (LRUCache.init 1 1 : LRUCache ℕ ℕ) = .ok c' ∧
      c'.entries.length ≤ 1 :=
  ⟨le_refl 1, put_bounded_never_raises 1 (le_refl 1) 1 _⟩

/-- C4 counterexample: the claim quantifies over every capacity fixed at
construction, but at capacity 0 the very first `put` raises `KeyError`
(`popitem(last=False)` on an empty `OrderedDict`), so `put` does raise. -/
theorem put_capacity_zero_raises :
    runOps [CacheOp.put (0 : ℕ) (0 : ℕ) 0] (LRUCache.init 0 1) =
      .error .keyError := rfl

/-- **C7**: for an entry `(k ↦ v)` stored at time `t` in a cache with
time-to-live `ttl`, a `get` at time `now` with `now - t > ttl` returns
absent and removes the entry, while a `get` with `now - t ≤ ttl` returns
the stored value. -/
theorem get_ttl_expiry {K V : Type} [DecidableEq K]
    (c : LRUCache K V) (k : K) (v : V) (t now : ℚ)
    (h : lookupEntry c.entries k = some (v, t)) :
    (now - t > c.ttl_in_seconds →
      (c.get k now).1 = none ∧
        lookupEntry (c.get k now).2.entries k = none)
    ∧ (now - t ≤ c.ttl_in_seconds → (c.get k now).1 = some v) := by
  unfold LRUCache.get
  rw [h]
  constructor
  · intro hgt
    simp only [hgt, if_true]
    exact ⟨trivial, lookupEntry_removeKey_self _ _⟩
  · intro hle
    have hn : ¬ (now - t > c.ttl_in_seconds) := not_lt.mpr hle
    simp only [hn, if_false]

/-- Witness for the C7 theorem: a one-entry cache with `ttl = 100` and an
entry stored at `t = 10`; a `get` at `111` (stale) and one at `50`
(fresh). -/
theorem get_ttl_expiry_witness :
    ((111 - 10 > (100 : ℚ)) ∧
      ((⟨[(0, 5, 10)], 1, 100⟩ : LRUCache ℕ ℕ).get 0 111).1 = none ∧
      lookupEntry ((⟨[(0, 5, 10)], 1, 100⟩ : LRUCache ℕ ℕ).get 0 111).2.entries 0
        = none)
    ∧ ((50 - 10 ≤ (100 : ℚ)) ∧
      ((⟨[(0, 5, 10)], 1, 100⟩ : LRUCache ℕ ℕ).get 0 50).1 = some 5) :=
  ⟨⟨by decide,
    (get_ttl_expiry (⟨[(0, 5, 10)], 1, 100⟩ : LRUCache ℕ ℕ) 0 5 10 111
      rfl).1 (by decide)⟩,
   ⟨by decide,
    (get_ttl_expiry (⟨[(0, 5, 10)], 1, 100⟩ : LRUCache ℕ ℕ) 0 5 10 50
      rfl).2 (by decide)⟩⟩

theorem lookupEntry_append_none {l₁ l₂ : List (K × V × ℚ)} {k : K}
    (h : lookupEntry l₁ k = none) :
    lookupEntry (l₁ ++ l₂) k = lookupEntry l₂ k := by
  induction l₁ with
  | nil => rfl
  | cons e rest ih =>
    obtain ⟨k', v, t⟩ := e
    by_cases hk : k' = k
    · rw [lookupEntry, if_pos hk] at h
      exact absurd h (by simp)
    · rw [lookupEntry, if_neg hk] at h
      rw [List.cons_append, lookupEntry, if_neg hk]
      exact ih h

theorem lookupEntry_tagged_none (g : K → V × ℚ) (ks : List K) (k : K)
    (h : k ∉ ks) :
    lookupEntry (ks.map (fun x => (x, g x))) k = none := by
  induction ks with
  | nil => rfl
  | cons a rest ih =>
    rw [List.map_cons, lookupEntry,
      if_neg (by simp at h; exact fun hh => h.1 hh.symm)]
    exact ih (by simp at h; exact h.2)

theorem removeKey_tagged_not_mem (g : K → V × ℚ) (ks : List K) (k : K)
    (h : k ∉ ks) :
    removeKey (ks.map (fun x => (x, g x))) k = ks.map (fun x => (x, g x)) := by
  induction ks with
  | nil => rfl
  | cons a rest ih =>
    rw [List.map_cons, removeKey_cons]
    rw [if_neg (by simp at h; exact fun hh => h.1 hh.symm)]
    rw [ih (by simp at h; exact h.2)]

theorem runOps_append (l₁ l₂ : List (CacheOp K V)) (c : LRUCache K V) :
    runOps (l₁ ++ l₂) c =
      match runOps l₁ c with
      | .ok c' => runOps l₂ c'
      | .error e => .error e := by
  induction l₁ generalizing c with
  | nil => rfl
  | cons op rest ih =>
    cases op with
    | get k now => rw [List.cons_append, runOps, runOps, ih]
    | put k v now =>
      rw [List.cons_append, runOps, runOps]
      cases c.put k v now with
      | ok c' => exact ih c'
      | error e => rfl
    | delete k => rw [List.cons_append, runOps, runOps, ih]
    | clear => rw [List.cons_append, runOps, runOps, ih]
    | contains k => rw [List.cons_append, runOps, runOps, ih]

/-- Inserting a list of distinct keys, all fresh to the cache, while there
is room for all of them, appends them in order (no eviction, no
exception). -/
theorem runOps_fill (v : V) (now : ℚ) :
    ∀ (ks : List K) (c : LRUCache K V), ks.Nodup →
      (∀ k ∈ ks, lookupEntry c.entries k = none) →
      c.entries.length + ks.length ≤ c.capacity →
      runOps (ks.map (fun k => CacheOp.put k v now)) c =
        .ok { c with entries := c.entries ++ ks.map (fun k => (k, v, now)) } := by
  intro ks
  induction ks with
  | nil =>
    intro c _ _ _
    simp [runOps]
  | cons a rest ih =>
    intro c hnd hfresh hlen
    have ha : lookupEntry c.entries a = none := hfresh a (by simp)
    have hput : c.put a v now =
        .ok ⟨c.entries ++ [(a, v, now)], c.capacity, c.ttl_in_seconds⟩ := by
      unfold LRUCache.put
      rw [ha]
      rw [if_neg (by simp)]
      rw [if_neg (by simp at hlen ⊢; omega)]
    have hnd' : rest.Nodup := (List.nodup_cons.mp hnd).2
    have hafresh : a ∉ rest := (List.nodup_cons.mp hnd).1
    have hfresh' : ∀ k ∈ rest,
        lookupEntry (c.entries ++ [(a, v, now)]) k = none := by
      intro k hk
      rw [lookupEntry_append_none (hfresh k (by simp [hk]))]
      rw [lookupEntry, if_neg (by intro hak; exact hafresh (hak ▸ hk))]
      rfl
    have hrest := ih ⟨c.entries ++ [(a, v, now)], c.capacity, c.ttl_in_seconds⟩
      hnd' hfresh' (by simp at hlen ⊢; omega)
    rw [List.map_cons]
    simp only [runOps, hput, hrest]
    simp

/-- `put` of a fresh key into a full, non-empty cache evicts the head (the
least-recently-used entry) and appends the new entry at the tail. -/
theorem put_evict (c : LRUCache K V) (k : K) (v : V) (now : ℚ)
    (hfresh : lookupEntry c.entries k = none)
    (hfull : c.entries.length ≥ c.capacity)
    (e : K × V × ℚ) (es : List (K × V × ℚ)) (hE : c.entries = e :: es) :
    c.put k v now = .ok ⟨es ++ [(k, v, now)], c.capacity, c.ttl_in_seconds⟩ := by
  unfold LRUCache.put
  rw [hfresh, if_neg (by simp), if_pos hfull, hE]

/-- `get` of a fresh (non-expired) entry moves it to the tail and returns
its value. -/
theorem get_fresh_hit (c : LRUCache K V) (k : K) (v : V) (t now : ℚ)
    (h : lookupEntry c.entries k = some (v, t))
    (httl : ¬(now - t > c.ttl_in_seconds)) :
    c.get k now = (some v,
      ⟨removeKey c.entries k ++ [(k, v, t)], c.capacity, c.ttl_in_seconds⟩) := by
  unfold LRUCache.get
  rw [h]
  dsimp only
  rw [if_neg httl]

/-- Inserting `C + 1` distinct keys `k0 :: mid ++ [klast]` into an empty
cache of capacity `C = mid.length + 1` evicts exactly the first key. -/
theorem lru_insert_evicts_first {K : Type} [DecidableEq K]
    (k0 : K) (mid : List K) (klast : K)
    (hnd : (k0 :: (mid ++ [klast])).Nodup) :
    runOps ((k0 :: (mid ++ [klast])).map (fun k => CacheOp.put k () 0))
      (LRUCache.init (mid.length + 1) 1) =
    .ok ⟨(mid ++ [klast]).map (fun k => (k, (), 0)), mid.length + 1, 1⟩ := by
  obtain ⟨hk0, hrest⟩ := List.nodup_cons.mp hnd
  have hk0mid : k0 ∉ mid := fun h => hk0 (List.mem_append_left _ h)
  have hk0last : k0 ≠ klast :=
    fun h => hk0 (List.mem_append_right _ (by simp [h]))
  have hmidnd : mid.Nodup := (List.nodup_append.mp hrest).1
  have hlastmid : klast ∉ mid := by
    intro h
    exact (List.nodup_append.mp hrest).2.2 h (by simp)
  have hnd0 : (k0 :: mid).Nodup := List.nodup_cons.mpr ⟨hk0mid, hmidnd⟩
  have hfill := runOps_fill () 0 (k0 :: mid)
    (LRUCache.init (mid.length + 1) 1) hnd0 (fun k _ => rfl)
    (by simp [LRUCache.init])
  have hklastfresh :
      lookupEntry ((k0 :: mid).map (fun x => (x, (), (0 : ℚ)))) klast = none := by
    refine lookupEntry_tagged_none (fun _ => ((), (0 : ℚ))) (k0 :: mid) klast ?_
    simp only [List.mem_cons, not_or]
    exact ⟨fun h => hk0last h.symm, hlastmid⟩
  have hmapsplit : (k0 :: (mid ++ [klast])).map (fun k => CacheOp.put k () 0)
      = ((k0 :: mid).map (fun k => CacheOp.put k () 0))
        ++ [CacheOp.put klast () 0] := by simp
  rw [hmapsplit, runOps_append, hfill]
  show runOps [CacheOp.put klast () 0]
    ⟨(k0 :: mid).map (fun k => (k, (), 0)), mid.length + 1, 1⟩ = _
  have hput := put_evict
    (⟨(k0 :: mid).map (fun k => (k, (), 0)), mid.length + 1, 1⟩ :
      LRUCache K Unit)
    klast () 0 hklastfresh (by simp) (k0, (), 0)
    (mid.map (fun k => (k, (), 0))) (by simp)
  rw [runOps, hput]
  simp [runOps]

/-- With capacity `C = mid.length + 2`, filling the cache with
`k0 :: k1 :: mid`, then `get k0`, then `put klast` evicts `k1` — the `get`
made `k0` most recently used, so `k1` became the LRU victim instead. -/
theorem lru_get_changes_victim {K : Type} [DecidableEq K]
    (k0 k1 : K) (mid : List K) (klast : K)
    (hnd : (k0 :: k1 :: (mid ++ [klast])).Nodup) :
    runOps ((k0 :: k1 :: mid).map (fun k => CacheOp.put k () 0)
        ++ [CacheOp.get k0 0, CacheOp.put klast () 0])
      (LRUCache.init (mid.length + 2) 1) =
    .ok ⟨mid.map (fun k => (k, (), 0)) ++ [(k0, (), 0), (klast, (), 0)],
      mid.length + 2, 1⟩ := by
  obtain ⟨hk0, hrest⟩ := List.nodup_cons.mp hnd
  obtain ⟨hk1, hrest2⟩ := List.nodup_cons.mp hrest
  have hk0k1 : k0 ≠ k1 := fun h => hk0 (by simp [h])
  have hk0mid : k0 ∉ mid :=
    fun h => hk0 (by simp [List.mem_append_left _ h])
  have hk0last : k0 ≠ klast := fun h => hk0 (by simp [h])
  have hk1mid : k1 ∉ mid := fun h => hk1 (List.mem_append_left _ h)
  have hk1last : k1 ≠ klast :=
    fun h => hk1 (List.mem_append_right _ (by simp [h]))
  have hmidnd : mid.Nodup := (List.nodup_append.mp hrest2).1
  have hlastmid : klast ∉ mid := by
    intro h
    exact (List.nodup_append.mp hrest2).2.2 h (by simp)
  have hnd0 : (k0 :: k1 :: mid).Nodup := by
    refine List.nodup_cons.mpr ⟨?_, List.nodup_cons.mpr ⟨hk1mid, hmidnd⟩⟩
    simp only [List.mem_cons, not_or]
    exact ⟨hk0k1, hk0mid⟩
  have hfill := runOps_fill () 0 (k0 :: k1 :: mid)
    (LRUCache.init (mid.length + 2) 1) hnd0 (fun k _ => rfl)
    (by simp [LRUCache.init])
  rw [runOps_append, hfill]
  show runOps [CacheOp.get k0 0, CacheOp.put klast () 0]
    ⟨(k0 :: k1 :: mid).map (fun k => (k, (), 0)), mid.length + 2, 1⟩ = _
  have hget := get_fresh_hit
    (⟨(k0 :: k1 :: mid).map (fun k => (k, (), 0)), mid.length + 2, 1⟩ :
      LRUCache K Unit)
    k0 () 0 0 (by simp [lookupEntry]) (by norm_num)
  rw [runOps, hget]
  have hrm : removeKey ((k0 :: k1 :: mid).map (fun k => (k, (), (0 : ℚ)))) k0
      = (k1 :: mid).map (fun k => (k, (), 0)) := by
    rw [List.map_cons, removeKey_cons, if_pos rfl]
    refine removeKey_tagged_not_mem (fun _ => ((), (0 : ℚ))) (k1 :: mid) k0 ?_
    simp only [List.mem_cons, not_or]
    exact ⟨hk0k1, hk0mid⟩
  have hklastfresh : lookupEntry
      ((k1 :: mid).map (fun x => (x, (), (0 : ℚ))) ++ [(k0, (), 0)]) klast
      = none := by
    rw [lookupEntry_append_none (lookupEntry_tagged_none
      (fun _ => ((), (0 : ℚ))) (k1 :: mid) klast (by
        simp only [List.mem_cons, not_or]
        exact ⟨fun h => hk1last h.symm, hlastmid⟩))]
    rw [lookupEntry, if_neg hk0last]
    rfl
  have hput := put_evict
    (⟨(k1 :: mid).map (fun x => (x, (), (0 : ℚ))) ++ [(k0, (), 0)],
      mid.length + 2, 1⟩ : LRUCache K Unit)
    klast () 0 hklastfresh (by simp)
    (k1, (), 0) (mid.map (fun k => (k, (), 0)) ++ [(k0, (), 0)]) (by simp)
  rw [show (⟨removeKey ((k0 :: k1 :: mid).map (fun k => (k, (), (0 : ℚ)))) k0
      ++ [(k0, (), 0)], mid.length + 2, 1⟩ : LRUCache K Unit)
      = ⟨(k1 :: mid).map (fun x => (x, (), (0 : ℚ))) ++ [(k0, (), 0)],
        mid.length + 2, 1⟩ from by rw [hrm]]
  rw [runOps, hput]
  simp [runOps]

/-- **C8** (amended): for every capacity `C ≥ 1` (written `C = mid.length + 1`),
inserting `C + 1` distinct keys `k0, …, klast` into a fresh cache causes
exactly one eviction, of the least-recently-used key `k0`: the final
entries are exactly the later `C` keys in insertion order.  For every
capacity `C ≥ 2` (written `C = mid.length + 2`), performing a `get` of the
first key between the insertions updates its recency so that the second
key `k1` — by then the least recently used — is evicted instead.  (Both
bounds are forced: at capacity 0 the first `put` raises `KeyError` instead
of evicting, and at capacity 1 the `get` cannot change the victim — see
the counterexample.) -/
theorem lru_eviction_order {K : Type} [DecidableEq K] :
    (∀ (k0 : K) (mid : List K) (klast : K),
        (k0 :: (mid ++ [klast])).Nodup →
        runOps ((k0 :: (mid ++ [klast])).map (fun k => CacheOp.put k () 0))
          (LRUCache.init (mid.length + 1) 1) =
        .ok ⟨(mid ++ [klast]).map (fun k => (k, (), 0)), mid.length + 1, 1⟩)
    ∧ (∀ (k0 k1 : K) (mid : List K) (klast : K),
        (k0 :: k1 :: (mid ++ [klast])).Nodup →
        runOps ((k0 :: k1 :: mid).map (fun k => CacheOp.put k () 0)
            ++ [CacheOp.get k0 0, CacheOp.put klast () 0])
          (LRUCache.init (mid.length + 2) 1) =
        .ok ⟨mid.map (fun k => (k, (), 0)) ++ [(k0, (), 0), (klast, (), 0)],
          mid.length + 2, 1⟩) :=
  ⟨lru_insert_evicts_first, lru_get_changes_victim⟩

/-- Witness for the C8 theorem: capacity 2 with keys 0, 1, 2 (no get), and
capacity 2 with keys 0, 1, a get of 0, then key 2 (which evicts 1). -/
theorem lru_eviction_order_witness :
    ((0 :: ([1] ++ [2]) : List ℕ).Nodup ∧
      runOps [CacheOp.put (0 : ℕ) () 0, CacheOp.put 1 () 0, CacheOp.put 2 () 0]
        (LRUCache.init 2 1) = .ok ⟨[(1, (), 0), (2, (), 0)], 2, 1⟩)
    ∧ ((0 :: 1 :: (([] : List ℕ) ++ [2])).Nodup ∧
      runOps [CacheOp.put (0 : ℕ) () 0, CacheOp.put 1 () 0,
          CacheOp.get 0 0, CacheOp.put 2 () 0]
        (LRUCache.init 2 1) = .ok ⟨[(0, (), 0), (2, (), 0)], 2, 1⟩) :=
  ⟨⟨by decide, lru_eviction_order.1 0 [1] 2 (by decide)⟩,
   ⟨by decide, lru_eviction_order.2 0 1 [] 2 (by decide)⟩⟩

/-- C8 counterexample: the claim quantifies over every capacity.  At
capacity `C = 1`, inserting the two distinct keys 1 and 2 with a `get` of
key 1 between the insertions still evicts key 1 — exactly the key the
`get` just made most recently used, and the same key evicted without the
`get` — so the recency update does not make "a different key" the
eviction victim. -/
theorem lru_get_victim_unchanged_cap1 :
    runOps [CacheOp.put (1 : ℕ) () 0, CacheOp.get 1 0, CacheOp.put 2 () 0]
      (LRUCache.init 1 1) = .ok ⟨[(2, (), 0)], 1, 1⟩
    ∧ runOps [CacheOp.put (1 : ℕ) () 0, CacheOp.put 2 () 0]
      (LRUCache.init 1 1) = .ok ⟨[(2, (), 0)], 1, 1⟩ :=
  ⟨rfl, rfl⟩

/-! ## Lemmas about the retry policy -/

/-- **C3**: an error satisfying the abort predicate ends the retry loop at
once.  First conjunct: from any reached attempt `i` (with at least one
loop iteration remaining and sleeps `sl` accumulated so far), if the
attempt raises `e` with `P e = true`, the loop stops with exactly that one
additional attempt, performs no further backoff sleep, and re-raises that
same error `e`.  Second conjunct, specialised to a whole wrapped call: for
every positive attempt budget `N`, a first attempt raising an abort-worthy
error yields exactly one attempt, no sleeps, and `e` re-raised. -/
theorem retry_abort_stops_immediately {σ α : Type} (D : ℚ)
    (P : PyExc → Bool) (f : ℕ → σ → Except PyExc α × σ) :
    (∀ (fuel i : ℕ) (s : σ) (sl : List ℚ) (e : PyExc) (s' : σ),
      f i s = (.error e, s') → P e = true →
      retryGo D P f (fuel + 1) i s sl = ⟨.error e, i + 1, sl, s'⟩)
    ∧ (∀ (N : ℤ) (s : σ) (e : PyExc) (s' : σ),
      0 < N → f 0 s = (.error e, s') → P e = true →
      retry_on_failure N D P f s = .ok ⟨.error e, 1, [], s'⟩) := by
  have habort : ∀ (fuel i : ℕ) (s : σ) (sl : List ℚ) (e : PyExc) (s' : σ),
      f i s = (.error e, s') → P e = true →
      retryGo D P f (fuel + 1) i s sl = ⟨.error e, i + 1, sl, s'⟩ := by
    intro fuel i s sl e s' hf hp
    rw [retryGo, hf]
    by_cases hc : retryCaught e
    · simp [hc, hp]
    · simp [hc]
  refine ⟨habort, ?_⟩
  intro N s e s' hN hf hp
  unfold retry_on_failure
  rw [if_neg (by omega)]
  obtain ⟨m, hm⟩ : ∃ m, N.toNat = m + 1 := ⟨N.toNat - 1, by omega⟩
  rw [hm, habort m 0 s [] e s' hf hp]

/-- Witness for the C3 theorem: attempt budget 3 and an operation raising
`RateLimitError` (the abort trigger used by `fetch_tax_brackets`) on its
first attempt. -/
theorem retry_abort_stops_immediately_witness :
    (0 < (3 : ℤ)) ∧
      retry_on_failure 3 1 PyExc.isRateLimitError
        (fun _ (s : Unit) =>
          ((.error (.rateLimitError "API rate limit exceeded") :
            Except PyExc Unit), s)) ()
      = .ok ⟨.error (.rateLimitError "API rate limit exceeded"), 1, [], ()⟩ :=
  ⟨by decide,
    (retry_abort_stops_immediately 1 PyExc.isRateLimitError
      (fun _ (s : Unit) =>
        ((.error (.rateLimitError "API rate limit exceeded") :
          Except PyExc Unit), s))).2
      3 () _ () (by decide) rfl rfl⟩

/-- An operation that, run in state `s₀`, raises the same caught, non-abort
error at every attempt and leaves the state at `s₀`, exhausts the whole
budget: starting from attempt `i` with `fuel` iterations left, the loop
performs `fuel` further attempts, sleeping `D * (i+1), …, D * (i+fuel-1)`
in between, and re-raises the error. -/
theorem retryGo_const_error {σ α : Type} (D : ℚ) (P : PyExc → Bool)
    (f : ℕ → σ → Except PyExc α × σ) (e : PyExc) (s₀ : σ)
    (hf : ∀ i, f i s₀ = (.error e, s₀))
    (hc : retryCaught e = true) (hp : P e = false) :
    ∀ (fuel i : ℕ) (sl : List ℚ),
      retryGo D P f (fuel + 1) i s₀ sl =
        ⟨.error e, i + fuel + 1,
          sl ++ (List.range' (i + 1) fuel).map (fun (j : ℕ) => D * (j : ℚ)),
          s₀⟩ := by
  intro fuel
  induction fuel with
  | zero =>
    intro i sl
    rw [retryGo, hf]
    simp [hc, hp]
  | succ fuel ih =>
    intro i sl
    rw [retryGo, hf]
    dsimp only
    rw [if_neg (show ¬¬(retryCaught e = true) by simp [hc])]
    rw [if_neg (show ¬(P e = true) by simp [hp])]
    rw [if_neg (Nat.succ_ne_zero fuel)]
    rw [ih (i + 1) (sl ++ [D * ((i : ℚ) + 1)])]
    simp only [RetryResult.mk.injEq]
    refine ⟨trivial, by omega, ?_, trivial⟩
    rw [List.range'_succ, List.map_cons, List.append_assoc]
    push_cast
    simp

/-- A whole wrapped call whose every attempt raises the same caught,
non-abort error from state `s₀` makes exactly `max_retries` attempts with
linearly growing sleeps `D, 2D, …` between them and re-raises the error. -/
theorem retry_const_error {σ α : Type} (max_retries : ℤ) (D : ℚ)
    (P : PyExc → Bool) (f : ℕ → σ → Except PyExc α × σ) (e : PyExc)
    (s₀ : σ) (hf : ∀ i, f i s₀ = (.error e, s₀))
    (hc : retryCaught e = true) (hp : P e = false)
    (hN : 0 < max_retries) :
    retry_on_failure max_retries D P f s₀ =
      .ok ⟨.error e, max_retries.toNat,
        (List.range' 1 (max_retries.toNat - 1)).map
          (fun (j : ℕ) => D * (j : ℚ)), s₀⟩ := by
  unfold retry_on_failure
  rw [if_neg (by omega)]
  obtain ⟨m, hm⟩ : ∃ m, max_retries.toNat = m + 1 :=
    ⟨max_retries.toNat - 1, by omega⟩
  rw [hm, retryGo_const_error D P f e s₀ hf hc hp m 0 []]
  simp

/-! ## Lemmas about the validators and the fetcher -/

theorem validate_api_url_error (s : String) (e : PyExc)
    (h : validate_api_url s = .error e) : e.isValidationError = true := by
  unfold validate_api_url at h
  by_cases h1 : s = ""
  · rw [if_pos h1] at h
    simp only [Except.error.injEq] at h
    subst h; rfl
  · rw [if_neg h1] at h
    cases hs : splitScheme s.toList with
    | none =>
      rw [hs] at h
      simp only [Except.error.injEq] at h
      subst h; rfl
    | some pr =>
      obtain ⟨sch, rest⟩ := pr
      rw [hs] at h
      dsimp only at h
      by_cases h2 : netlocOf rest = []
      · rw [if_pos h2] at h
        simp only [Except.error.injEq] at h
        subst h; rfl
      · rw [if_neg h2] at h
        simp at h

theorem yearRange_error (n : ℤ) (e : PyExc) (h : yearRange n = .error e) :
    e.isValidationError = true := by
  unfold yearRange at h
  by_cases h1 : n < 2019 ∨ n > 2023
  · rw [if_pos h1] at h
    simp only [Except.error.injEq] at h
    subst h; rfl
  · rw [if_neg h1] at h
    simp at h

theorem validate_year_error (y : YearInput) (e : PyExc)
    (h : validate_year y = .error e) : e.isValidationError = true := by
  cases y with
  | int n =>
    unfold validate_year at h
    dsimp only at h
    by_cases h1 : n = 0
    · rw [if_pos h1] at h
      simp only [Except.error.injEq] at h
      subst h; rfl
    · rw [if_neg h1] at h
      exact yearRange_error n e h
  | str s =>
    unfold validate_year at h
    dsimp only at h
    by_cases h1 : s = ""
    · rw [if_pos h1] at h
      simp only [Except.error.injEq] at h
      subst h; rfl
    · rw [if_neg h1] at h
      cases hp : parsePyInt (s.toList.filter (fun c => c ≠ ' ')) with
      | none =>
        rw [hp] at h
        simp only [Except.error.injEq] at h
        subst h; rfl
      | some n =>
        rw [hp] at h
        exact yearRange_error n e h

theorem validate_salary_error (x : SalaryInput) (e : PyExc)
    (h : validate_salary x = .error e) : e.isValidationError = true := by
  cases x with
  | none => simp [validate_salary] at h
  | num q => simp [validate_salary] at h
  | str s =>
    unfold validate_salary at h
    dsimp only at h
    by_cases h1 : s = ""
    · rw [if_pos h1] at h
      simp at h
    · rw [if_neg h1] at h
      cases hp : parseCleaned (s.toList.filter (fun c => !isSeparatorChar c)) with
      | some q => rw [hp] at h; simp at h
      | none =>
        rw [hp] at h
        simp only [Except.error.injEq] at h
        subst h; rfl

/-- The input-validation prefix of one `fetch_tax_brackets` attempt:
URL first, then year, as in the source. -/
def fetchValidation (year : YearInput) (api_url : String) : Except PyExc ℤ :=
  match validate_api_url api_url with
  | .error e => .error e
  | .ok _ => validate_year year

theorem fetchValidation_error_is_validation (year : YearInput) (url : String)
    (e : PyExc) (h : fetchValidation year url = .error e) :
    e.isValidationError = true := by
  unfold fetchValidation at h
  cases hu : validate_api_url url with
  | error e' =>
    rw [hu] at h
    simp only [Except.error.injEq] at h
    subst h
    exact validate_api_url_error url e' hu
  | ok u =>
    rw [hu] at h
    dsimp only at h
    exact validate_year_error year e h

/-- When validation fails, every attempt of `fetch_tax_brackets` raises the
same `ValidationError` before touching the cache or the network. -/
theorem fetchAttempt_validation_error (year : YearInput) (url : String)
    (e : PyExc) (h : fetchValidation year url = .error e)
    (http : HttpOutcome) (c : TaxCache) (now : ℚ) :
    fetchAttempt year url http c now = ⟨.error e, c, false⟩ := by
  unfold fetchValidation at h
  unfold fetchAttempt
  cases hu : validate_api_url url with
  | error e' =>
    rw [hu] at h
    simp only [Except.error.injEq] at h
    subst h
    rfl
  | ok u =>
    rw [hu] at h
    dsimp only at h
    dsimp only
    cases hy : validate_year year with
    | error e' =>
      rw [hy] at h
      simp only [Except.error.injEq] at h
      subst h
      rfl
    | ok y =>
      rw [hy] at h
      simp at h

/-- An attempt with valid inputs, a cache miss and an upstream 404 raises
`ResourceNotFoundError` and leaves the cache unchanged. -/
theorem fetchAttempt_404 (year : YearInput) (url : String) (y : ℤ)
    (u : String) (hfU : validate_api_url url = .ok u)
    (hfY : validate_year year = .ok y) (c : TaxCache)
    (hmiss : lookupEntry c.entries (get_cache_key y) = none)
    (hasF : Bool) (br : List Bracket) (now : ℚ) :
    fetchAttempt year url (.response 404 hasF br) c now =
      ⟨.error (.resourceNotFoundError
        ("Tax data not found for year " ++ intToString y)), c, true⟩ := by
  unfold fetchAttempt
  rw [hfU]
  dsimp only
  rw [hfY]
  dsimp only
  have hg : LRUCache.get c (get_cache_key y) now = (none, c) := by
    unfold LRUCache.get
    rw [hmiss]
  rw [hg]
  dsimp only
  unfold fetchHttp
  dsimp only
  rw [if_pos rfl]

theorem validationError_caught_not_ratelimit (e : PyExc)
    (h : e.isValidationError = true) :
    retryCaught e = true ∧ PyExc.isRateLimitError e = false := by
  cases e <;> simp_all [PyExc.isValidationError, retryCaught,
    PyExc.isAPIError, PyExc.isRequestException, PyExc.isRateLimitError]

/-- **C1** (amended): a call to `fetch_tax_brackets` whose input fails
validation raises `ValidationError`, but the error is NOT surfaced
immediately on the first attempt: `ValidationError` subclasses `APIError`,
which is in the retry wrapper's caught tuple
`(requests.RequestException, APIError)`, and the abort predicate matches
only `RateLimitError`, so the wrapper runs all 3 attempts — each
re-raising the same `ValidationError` — with backoff sleeps of 1 s and 2 s
between them, before re-raising it.  The cache is untouched. -/
theorem fetch_validation_error_retried
    (year : YearInput) (url : String) (e : PyExc)
    (http : ℕ → HttpOutcome) (nows : ℕ → ℚ) (c : TaxCache)
    (h : fetchValidation year url = .error e) :
    e.isValidationError = true ∧
    fetch_tax_brackets year url http nows c = .ok ⟨.error e, 3, [1, 2], c⟩ := by
  have hval := fetchValidation_error_is_validation year url e h
  obtain ⟨hcaught, hp⟩ := validationError_caught_not_ratelimit e hval
  refine ⟨hval, ?_⟩
  unfold fetch_tax_brackets
  have hf : ∀ i, (fun i (s : TaxCache) =>
      let st := fetchAttempt year url (http i) s (nows i)
      (st.result, st.cache)) i c = (.error e, c) := by
    intro i
    dsimp only
    rw [fetchAttempt_validation_error year url e h (http i) c (nows i)]
  rw [retry_const_error 3 1 PyExc.isRateLimitError _ e c hf hcaught hp
    (by norm_num)]
  rfl

/-- Witness for the C1 theorem: year 2018 (outside the supported range) and
a well-formed URL. -/
theorem fetch_validation_error_retried_witness :
    fetchValidation (.int 2018) "http://localhost:5001"
      = .error (.validationError "Year not supported") ∧
    (PyExc.validationError "Year not supported").isValidationError = true ∧
    fetch_tax_brackets (.int 2018) "http://localhost:5001"
      (fun _ => .response 200 true []) (fun _ => 0) tax_brackets_cache
      = .ok ⟨.error (.validationError "Year not supported"), 3, [1, 2],
        tax_brackets_cache⟩ :=
  ⟨rfl,
   (fetch_validation_error_retried (.int 2018) "http://localhost:5001"
     (.validationError "Year not supported") (fun _ => .response 200 true [])
     (fun _ => 0) tax_brackets_cache rfl).1,
   (fetch_validation_error_retried (.int 2018) "http://localhost:5001"
     (.validationError "Year not supported") (fun _ => .response 200 true [])
     (fun _ => 0) tax_brackets_cache rfl).2⟩

/-- C1 counterexample: with the invalid year 2018, the wrapped
`fetch_tax_brackets` call makes 3 attempts and performs two backoff sleeps
(1 s, then 2 s) before re-raising the `ValidationError` — not one attempt
and no sleep as the claim states. -/
theorem fetch_validation_error_not_immediate :
    fetch_tax_brackets (.int 2018) "http://localhost:5001"
      (fun _ => .response 200 true []) (fun _ => 0) tax_brackets_cache
      = .ok ⟨.error (.validationError "Year not supported"), 3, [1, 2],
        tax_brackets_cache⟩
    ∧ (3 : ℕ) ≠ 1 ∧ ([1, 2] : List ℚ) ≠ [] :=
  ⟨rfl, by norm_num, by simp⟩

/-- **C2** (amended): when the upstream responds 404 on every attempt (with
valid inputs and a cache miss), the raised `ResourceNotFoundError` is NOT
terminal after one attempt: it subclasses `APIError`, which the retry
wrapper's caught tuple includes, and the abort predicate matches only
`RateLimitError`, so the wrapper makes all 3 attempts with sleeps of 1 s
and 2 s before re-raising the not-found error. -/
theorem fetch_404_retried (year : YearInput) (url : String) (y : ℤ)
    (u : String) (hfU : validate_api_url url = .ok u)
    (hfY : validate_year year = .ok y) (c : TaxCache)
    (hmiss : lookupEntry c.entries (get_cache_key y) = none)
    (hasF : ℕ → Bool) (br : ℕ → List Bracket) (nows : ℕ → ℚ) :
    fetch_tax_brackets year url (fun i => .response 404 (hasF i) (br i))
      nows c =
    .ok ⟨.error (.resourceNotFoundError
      ("Tax data not found for year " ++ intToString y)), 3, [1, 2], c⟩ := by
  unfold fetch_tax_brackets
  have hf : ∀ i, (fun i (s : TaxCache) =>
      let st := fetchAttempt year url
        ((fun i => HttpOutcome.response 404 (hasF i) (br i)) i) s (nows i)
      (st.result, st.cache)) i c =
      (.error (.resourceNotFoundError
        ("Tax data not found for year " ++ intToString y)), c) := by
    intro i
    dsimp only
    rw [fetchAttempt_404 year url y u hfU hfY c hmiss (hasF i) (br i)
      (nows i)]
  rw [retry_const_error 3 1 PyExc.isRateLimitError _
    (.resourceNotFoundError ("Tax data not found for year " ++ intToString y))
    c hf rfl rfl (by norm_num)]
  rfl

/-- Witness for the C2 theorem: year 2023, a well-formed URL, the
module-level cache in its initial (empty) state, and an upstream that
responds 404 on every attempt. -/
theorem fetch_404_retried_witness :
    validate_api_url "http://localhost:5001" = .ok "http://localhost:5001" ∧
    validate_year (.int 2023) = .ok 2023 ∧
    lookupEntry tax_brackets_cache.entries (get_cache_key 2023) = none ∧
    fetch_tax_brackets (.int 2023) "http://localhost:5001"
      (fun _ => .response 404 false []) (fun _ => 0) tax_brackets_cache
      = .ok ⟨.error (.resourceNotFoundError "Tax data not found for year 2023"),
        3, [1, 2], tax_brackets_cache⟩ :=
  ⟨rfl, rfl, rfl,
   fetch_404_retried (.int 2023) "http://localhost:5001" 2023
     "http://localhost:5001" rfl rfl tax_brackets_cache rfl
     (fun _ => false) (fun _ => []) (fun _ => 0)⟩

/-- C2 counterexample: a fetch for 2023 whose upstream responds 404 makes
3 attempts (with two backoff sleeps) before the not-found error reaches
the caller — not exactly one attempt as the claim states. -/
theorem fetch_404_not_single_attempt :
    fetch_tax_brackets (.int 2023) "http://localhost:5001"
      (fun _ => .response 404 false []) (fun _ => 0) tax_brackets_cache
      = .ok ⟨.error (.resourceNotFoundError "Tax data not found for year 2023"),
        3, [1, 2], tax_brackets_cache⟩
    ∧ (3 : ℕ) ≠ 1 :=
  ⟨rfl, by norm_num⟩

/-- **C10**: when the cache holds the empty list `[]` under the year's key
(and the entry is not yet expired), `fetch_tax_brackets` does not take the
cache-hit path: the truthiness test `if cached_data:` fails on `[]`, so the
attempt proceeds as a miss, issues the upstream HTTP request, and its
result is never `(brackets, wasCacheHit = true)`. -/
theorem cached_empty_list_is_miss (year : YearInput) (url : String) (y : ℤ)
    (u : String) (hfU : validate_api_url url = .ok u)
    (hfY : validate_year year = .ok y) (c : TaxCache) (ts now : ℚ)
    (hentry : lookupEntry c.entries (get_cache_key y) = some ([], ts))
    (hfresh : ¬(now - ts > c.ttl_in_seconds)) (http : HttpOutcome) :
    (fetchAttempt year url http c now).madeHttp = true ∧
    ∀ l : List Bracket,
      (fetchAttempt year url http c now).result ≠ .ok (l, true) := by
  unfold fetchAttempt
  rw [hfU]
  dsimp only
  rw [hfY]
  dsimp only
  rw [get_fresh_hit c (get_cache_key y) [] ts now hentry hfresh]
  dsimp only
  rw [if_neg (by simp)]
  constructor
  · cases http with
    | networkError m => rfl
    | response st hfld br =>
      unfold fetchHttp
      dsimp only
      split_ifs <;> first
        | rfl
        | (cases hput : LRUCache.put
            (⟨removeKey c.entries (get_cache_key y) ++ [(get_cache_key y, [], ts)],
              c.capacity, c.ttl_in_seconds⟩ : TaxCache)
            (get_cache_key y) br now with
          | ok c2 => rfl
          | error e => rfl)
  · intro l
    cases http with
    | networkError m => simp [fetchHttp]
    | response st hfld br =>
      unfold fetchHttp
      dsimp only
      split_ifs <;> first
        | (split <;> simp)
        | simp

/-- Witness for the C10 theorem: a cache whose entry for `brackets_2023` is
the empty list, stored at time 0 and read at time 5 (well within the
one-month TTL); the upstream responds 200 with a one-bracket body. -/
theorem cached_empty_list_is_miss_witness :
    validate_api_url "http://localhost:5001" = .ok "http://localhost:5001" ∧
    validate_year (.int 2023) = .ok 2023 ∧
    lookupEntry (⟨[("brackets_2023", ([] : List Bracket), 0)], 100,
        ONE_MONTH_IN_SECONDS⟩ : TaxCache).entries (get_cache_key 2023)
      = some ([], 0) ∧
    ((fetchAttempt (.int 2023) "http://localhost:5001"
        (.response 200 true [⟨0, none, 15/100⟩])
        (⟨[("brackets_2023", ([] : List Bracket), 0)], 100,
          ONE_MONTH_IN_SECONDS⟩ : TaxCache) 5).madeHttp = true ∧
      ∀ l : List Bracket,
        (fetchAttempt (.int 2023) "http://localhost:5001"
          (.response 200 true [⟨0, none, 15/100⟩])
          (⟨[("brackets_2023", ([] : List Bracket), 0)], 100,
            ONE_MONTH_IN_SECONDS⟩ : TaxCache) 5).result ≠ .ok (l, true)) :=
  ⟨rfl, rfl, rfl,
   cached_empty_list_is_miss (.int 2023) "http://localhost:5001" 2023
     "http://localhost:5001" rfl rfl
     (⟨[("brackets_2023", ([] : List Bracket), 0)], 100,
       ONE_MONTH_IN_SECONDS⟩ : TaxCache) 0 5 rfl
     (by decide)
     (.response 200 true [⟨0, none, 15/100⟩])⟩

/-- **C5**: the tax engine, on brackets
`[{min: 0, max: 50000, rate: 0.15}, {min: 50000, rate: 0.205}]` and salary
75000, returns total tax 12625.00, effective rate 16.83 (= 1683/100), and
exactly the two breakdown entries
`("$0.00 to $50,000.00", 7500.00, 15)` and
`("Over $50,000.00", 5125.00, 20.5 = 41/2)`. -/
theorem tax_engine_example_75000 :
    calculate_taxes (.num 75000)
      (some [⟨0, some 50000, 15/100⟩, ⟨50000, none, 205/1000⟩])
      = .ok (12625, 1683/100,
        [⟨"$0.00 to $50,000.00", 7500, 15⟩,
         ⟨"Over $50,000.00", 5125, 41/2⟩]) := rfl

/-- **C9**: `validate_salary` normalizes `"1,000.50"`, `"1_000.50"`,
`"1 000.50"` and the numeric `1000.50` (= 2001/2) all to the same value
1000.50, rejects `"10.5.5"` with a `ValidationError`, and maps empty and
absent salary to 0. -/
theorem validate_salary_normalization :
    validate_salary (.str "1,000.50") = .ok (2001/2 : ℚ) ∧
    validate_salary (.str "1_000.50") = .ok (2001/2 : ℚ) ∧
    validate_salary (.str "1 000.50") = .ok (2001/2 : ℚ) ∧
    validate_salary (.num (2001/2)) = .ok (2001/2 : ℚ) ∧
    validate_salary (.str "10.5.5")
      = .error (.validationError "Invalid salary format") ∧
    validate_salary .none = .ok 0 ∧
    validate_salary (.str "") = .ok 0 :=
  ⟨rfl, rfl, rfl, rfl, rfl, rfl, rfl⟩

/-- **C6** (amended): `calculate_taxes` raises `ValidationError` exactly
when the brackets are absent/empty or the salary fails the shared parsing
rule (which also accepts negative numbers — they do not raise).  A salary
that parses to 0 with non-empty brackets raises `ZeroDivisionError` at the
effective-rate division.  Any other parsed salary returns normally. -/
theorem calculate_taxes_error_conditions :
    (∀ salary, calculate_taxes salary none
      = .error (.validationError "Tax brackets cannot be empty")) ∧
    (∀ salary, calculate_taxes salary (some [])
      = .error (.validationError "Tax brackets cannot be empty")) ∧
    (∀ salary bs e, bs ≠ [] → validate_salary salary = .error e →
      calculate_taxes salary (some bs) = .error e ∧
        e.isValidationError = true) ∧
    (∀ salary bs, bs ≠ [] → validate_salary salary = .ok 0 →
      calculate_taxes salary (some bs) = .error .zeroDivisionError) ∧
    (∀ salary bs s, bs ≠ [] → validate_salary salary = .ok s → s ≠ 0 →
      ∃ t r br, calculate_taxes salary (some bs) = .ok (t, r, br)) := by
  refine ⟨fun salary => rfl, fun salary => rfl, ?_, ?_, ?_⟩
  · intro salary bs e hbs hsal
    refine ⟨?_, validate_salary_error salary e hsal⟩
    unfold calculate_taxes
    dsimp only
    rw [if_neg hbs, hsal]
  · intro salary bs hbs hsal
    unfold calculate_taxes
    dsimp only
    rw [if_neg hbs, hsal]
    dsimp only
    rw [if_pos rfl]
  · intro salary bs s hbs hsal hs
    unfold calculate_taxes
    dsimp only
    rw [if_neg hbs, hsal]
    dsimp only
    rw [if_neg hs]
    exact ⟨_, _, _, rfl⟩

/-- Witness for the C6 theorem: salary 0 with one non-empty bracket list
triggers the `ZeroDivisionError` clause; the string "abcd" triggers the
`ValidationError` clause. -/
theorem calculate_taxes_error_conditions_witness :
    calculate_taxes (.num 0) (some [⟨0, none, 15/100⟩])
      = .error .zeroDivisionError ∧
    calculate_taxes (.str "abcd") (some [⟨0, none, 15/100⟩])
      = .error (.validationError "Invalid salary format") :=
  ⟨calculate_taxes_error_conditions.2.2.2.1 (.num 0) [⟨0, none, 15/100⟩]
     (by simp) rfl,
   (calculate_taxes_error_conditions.2.2.1 (.str "abcd") [⟨0, none, 15/100⟩]
     (.validationError "Invalid salary format") (by simp) rfl).1⟩

/-- C6 counterexample: the claim requires a validation error whenever the
salary cannot be parsed to a non-negative number, and no exception
otherwise.  But `"-100"` (not parseable to a non-negative number — the
shared rule accepts the leading minus and yields −100) returns normally,
and the non-negative salary 0 raises `ZeroDivisionError` rather than
returning. -/
theorem calculate_taxes_c6_refuted :
    calculate_taxes (.str "-100") (some [⟨0, none, 15/100⟩]) = .ok (0, 0, []) ∧
    calculate_taxes (.num 0) (some [⟨0, none, 15/100⟩])
      = .error .zeroDivisionError :=
  ⟨rfl, rfl⟩

end TaxCalc
